import Mathlib

/-!
# Verification of the matching / messaging core (mom-app)

Shallow embedding of the TypeScript services in `src/services` and
`src/types/models.ts` together with the data-integrity rules of
`supabase_schema.sql`.  The external relational store is modelled as an
explicit record of table rows; every service call becomes a pure function
from a store state (plus the caller's arguments and, where the source reads
the clock, an explicit `now` timestamp) to a result and a new state.
Fallible calls (the TypeScript functions `throw`) return `Except String`,
the error value being the thrown message.

Modelling conventions, recorded once:
* User / group identifiers are `String` (UUIDs in the source); the
  JavaScript `[a, b].sort()` over two strings compares code units
  lexicographically, embedded here as the structurally recursive `strLtB`
  over the character list (identical to the code-unit order on the ASCII
  identifiers at issue).
* Timestamps (`created_at`, `read_at`, `deleted_at`) are `Nat`.
* Database-generated surrogate `id` columns (random UUIDs) are omitted:
  no service branches on them, and the spec's "same Match row" identity is
  the canonical `(user1_id, user2_id)` pair content.
* Schema constraints that produce observable service behaviour are part of
  the store model: `UNIQUE(swiper_id, swiped_id)` on swipes,
  `UNIQUE(user1_id, user2_id)` and `CHECK (user1_id < user2_id)` on
  matches, `CHECK (LENGTH(content) > 0 AND LENGTH(content) <= 2000)` on
  messages and group_messages, and the row-level-security SELECT policy on
  group_messages (`deleted_at IS NULL`).  Pure access-control policies
  (who may read or write rows they are authorised for) are abstracted:
  callers are assumed authorised, as every claim quantifies over the
  caller's own data.
* Foreign-key columns reference profiles; FK enforcement is not modelled
  (the claims quantify over users, taken to be profile identifiers).
-/

namespace MomApp

/-- `direction TEXT CHECK (direction IN ('left','right'))` on swipes. -/
inductive Direction where
  | left
  | right
deriving DecidableEq

/-- A row of the `swipes` table (surrogate id and created_at omitted). -/
structure Swipe where
  swiper_id : String
  swiped_id : String
  direction : Direction
deriving DecidableEq

/-- A row of the `matches` table: the canonical user pair. -/
structure MatchRow where
  user1_id : String
  user2_id : String
deriving DecidableEq

/-- A row of the `messages` table.  `read_at = none` is SQL NULL. -/
structure Message where
  sender_id : String
  recipient_id : String
  content : String
  read_at : Option Nat
  created_at : Nat
deriving DecidableEq

/-- A stored profile row (only the columns the embedded services read). -/
structure Profile where
  id : String
  name : String
  city : String
deriving DecidableEq

/-- A stored row of the `groups` table.  Note the table has no
`member_count` column; that field exists only on the client-side `Group`
model and is filled in by `getGroups`. -/
structure GroupRow where
  id : String
  name : String
  city : Option String
deriving DecidableEq

/-- A row of the `group_members` table (role omitted: no embedded service
branches on it). -/
structure GroupMember where
  group_id : String
  user_id : String
deriving DecidableEq

/-- A row of the `group_messages` table.  `deleted_at = some t` is the
soft-delete marker. -/
structure GroupMessage where
  group_id : String
  sender_id : String
  content : String
  created_at : Nat
  deleted_at : Option Nat
deriving DecidableEq

/-- The relational store: one list of rows per table. -/
structure DB where
  profiles : List Profile
  swipes : List Swipe
  -- the `matches` table; `matches` is reserved syntax in Lean, hence the name
  matchRows : List MatchRow
  messages : List Message
  groups : List GroupRow
  group_members : List GroupMember
  group_messages : List GroupMessage
deriving DecidableEq

/-- The message of a PostgreSQL unique-constraint violation (error code
23505), as propagated by `throw new Error(error.message)`. -/
def uniqueViolationMessage : String :=
  "duplicate key value violates unique constraint"

/-- The message of a PostgreSQL check-constraint violation (error code
23514), as propagated by `throw new Error(error.message)`. -/
def checkViolationMessage : String :=
  "new row violates check constraint"

/-- Lexicographic comparison of character lists, the order JavaScript's
default `sort()` comparator and PostgreSQL's text comparison induce on the
identifier strings. -/
def strLtB : List Char → List Char → Bool
  | [], [] => false
  | [], _ :: _ => true
  | _ :: _, [] => false
  | a :: as, b :: bs =>
    if a < b then true
    else if b < a then false
    else strLtB as bs

/-- Strict lexicographic order on identifier strings. -/
def strLt (a b : String) : Bool := strLtB a.data b.data

/-- Non-strict lexicographic order on identifier strings. -/
def strLe (a b : String) : Bool := strLt a b || a == b

/-- The first component of `[a, b].sort()`: the smaller identifier. -/
def strMin (a b : String) : String := if strLe a b then a else b

/-- The second component of `[a, b].sort()`: the larger identifier. -/
def strMax (a b : String) : String := if strLe a b then b else a

/-- Does a swipe row for the ordered pair `(swiper, swiped)` exist?  This
is the predicate behind the `UNIQUE(swiper_id, swiped_id)` constraint. -/
def hasSwipe (db : DB) (swiper swiped : String) : Bool :=
  db.swipes.any fun s => s.swiper_id == swiper && s.swiped_id == swiped

/-- The reciprocal-swipe query of `recordSwipe`
(`swiper_id = a`, `swiped_id = b`, `direction = 'right'`). -/
def hasRightSwipe (db : DB) (swiper swiped : String) : Bool :=
  db.swipes.any fun s =>
    s.swiper_id == swiper && s.swiped_id == swiped && s.direction == .right

/-- Does a match row with exactly `(user1_id, user2_id) = (u1, u2)` exist?
Predicate behind `UNIQUE(user1_id, user2_id)` on matches. -/
def hasMatch (db : DB) (u1 u2 : String) : Bool :=
  db.matchRows.any fun m => m.user1_id == u1 && m.user2_id == u2

/-- Number of swipe rows for the ordered pair `(swiper, swiped)`. -/
def countSwipesFor (db : DB) (swiper swiped : String) : Nat :=
  (db.swipes.filter fun s => s.swiper_id == swiper && s.swiped_id == swiped).length

/-- Number of match rows joining the two users, in either stored
orientation. -/
def countMatchesForPair (db : DB) (a b : String) : Nat :=
  (db.matchRows.filter fun m =>
    (m.user1_id == a && m.user2_id == b) || (m.user1_id == b && m.user2_id == a)).length

/-- `createMatch` of `models.ts`: sorts the two identifiers
(`[user1Id, user2Id].sort()`) and inserts the canonical row.  The store
evaluates `CHECK (user1_id < user2_id)` and then the uniqueness
constraint; any insert error is re-thrown
(`if (error) throw new Error(error.message)`). -/
def createMatch (db : DB) (user1Id user2Id : String) :
    Except String (MatchRow × DB) :=
  let u1 := strMin user1Id user2Id
  let u2 := strMax user1Id user2Id
  if strLt u1 u2 then
    if hasMatch db u1 u2 then
      .error uniqueViolationMessage
    else
      .ok (⟨u1, u2⟩, { db with matchRows := db.matchRows ++ [⟨u1, u2⟩] })
  else
    .error checkViolationMessage

/-- The store after a successful insert into `swipes`. -/
def afterSwipe (db : DB) (swiperId swipedId : String) (direction : Direction) : DB :=
  { db with swipes := db.swipes ++ [⟨swiperId, swipedId, direction⟩] }

/-- `recordSwipe` of `models.ts`.  The swipe insert's unique-violation
(error code 23505) is returned as `null`; for a right swipe the function
then queries the reverse-direction right swipe and, when present, calls
`createMatch`, whose errors propagate. -/
def recordSwipe (db : DB) (swiperId swipedId : String) (direction : Direction) :
    Except String (Option MatchRow × DB) :=
  if hasSwipe db swiperId swipedId then
    -- insert fails with code 23505: `return null`
    .ok (none, db)
  else
    let db1 : DB := afterSwipe db swiperId swipedId direction
    match direction with
    | .left => .ok (none, db1)
    | .right =>
      if hasRightSwipe db1 swipedId swiperId then
        match createMatch db1 swiperId swipedId with
        | .ok (m, db2) => .ok (some m, db2)
        | .error e => .error e
      else
        .ok (none, db1)

/-- The empty store. -/
def emptyDB : DB := ⟨[], [], [], [], [], [], []⟩

/-! ## Messaging service (`messaging.service.ts`) -/

/-- The content CHECK constraint shared by `messages` and `group_messages`:
`CHECK (LENGTH(content) > 0 AND LENGTH(content) <= 2000)`. -/
def contentLengthOk (content : String) : Bool :=
  0 < content.length && content.length ≤ 2000

/-- The store-side insert into `messages`: enforces the content CHECK
constraint; `read_at` defaults to NULL, `created_at` to the insert time. -/
def insertMessage (db : DB) (senderId recipientId content : String) (now : Nat) :
    Except String (Message × DB) :=
  if contentLengthOk content then
    let msg : Message := ⟨senderId, recipientId, content, none, now⟩
    .ok (msg, { db with messages := db.messages ++ [msg] })
  else
    .error checkViolationMessage

/-- `sendMessage` of `messaging.service.ts`: rejects content longer than
2000 up front (`throw new Error('Message too long')`), then inserts and
returns the persisted row, re-throwing any store error. -/
def sendMessage (db : DB) (senderId recipientId content : String) (now : Nat) :
    Except String (Message × DB) :=
  if content.length > 2000 then
    .error "Message too long"
  else
    insertMessage db senderId recipientId content now

/-- `getTotalUnreadCount` of `messaging.service.ts`: counts the rows with
`recipient_id = userId` and `read_at IS NULL`. -/
def getTotalUnreadCount (db : DB) (userId : String) : Nat :=
  (db.messages.filter fun m => m.recipient_id == userId && m.read_at == none).length

/-- A conversation summary as assembled by `getConversations`. -/
structure ConvSummary where
  other_user : String
  last_message : Option Message
  unread_count : Nat
deriving DecidableEq

/-- Descending creation-time order on messages (the
`order('created_at', { ascending: false })` of the last-message query). -/
def msgDesc (a b : Message) : Prop := b.created_at ≤ a.created_at

instance : DecidableRel msgDesc := fun _ _ => Nat.decLe _ _

instance : IsTotal Message msgDesc :=
  ⟨fun a b => by unfold msgDesc; exact Nat.le_total _ _⟩

instance : IsTrans Message msgDesc := ⟨fun _ _ _ h1 h2 => Nat.le_trans h2 h1⟩

/-- The last-message query of `getConversations`: messages between the two
users in either direction, newest first, limit 1 (`single()`, whose
zero-row error the source ignores). -/
def lastMessageBetween (db : DB) (userId otherId : String) : Option Message :=
  (List.insertionSort msgDesc
    (db.messages.filter fun m =>
      (m.sender_id == userId && m.recipient_id == otherId) ||
      (m.sender_id == otherId && m.recipient_id == userId))).head?

/-- The per-conversation unread-count query over a message list. -/
def unreadFromList (msgs : List Message) (otherId userId : String) : Nat :=
  (msgs.filter fun m =>
    m.sender_id == otherId && m.recipient_id == userId && m.read_at == none).length

/-- The per-conversation unread-count query of `getConversations`:
messages sent by the other user to `userId` with `read_at IS NULL`. -/
def unreadFrom (db : DB) (otherId userId : String) : Nat :=
  unreadFromList db.messages otherId userId

/-- The match rows `getConversations` loads:
`or(user1_id.eq.userId, user2_id.eq.userId)`. -/
def matchesOf (db : DB) (userId : String) : List MatchRow :=
  db.matchRows.filter fun m => m.user1_id == userId || m.user2_id == userId

/-- The "other party" of a match as computed by `getConversations`
(`isUser1 = match.user1.id === userId`). -/
def otherOf (userId : String) (m : MatchRow) : String :=
  if m.user1_id == userId then m.user2_id else m.user1_id

/-- The output comparator of `getConversations`:
`timeB.localeCompare(timeA)` on the last-message times, a missing last
message sorting as the smallest key (the empty string in the source). -/
def convDesc (a b : ConvSummary) : Prop :=
  (b.last_message.map Message.created_at).getD 0 ≤
    (a.last_message.map Message.created_at).getD 0

instance : DecidableRel convDesc := fun _ _ => Nat.decLe _ _

/-- `getConversations` of `messaging.service.ts`: one summary per match of
the user, sorted by last-message time descending. -/
def getConversations (db : DB) (userId : String) : List ConvSummary :=
  List.insertionSort convDesc
    ((matchesOf db userId).map fun m =>
      let other := otherOf userId m
      { other_user := other
        last_message := lastMessageBetween db userId other
        unread_count := unreadFrom db other userId })

/-- `markMessagesAsRead` of `messaging.service.ts`: sets
`read_at = now` on the rows with `sender_id = senderId`,
`recipient_id = recipientId` and `read_at IS NULL`. -/
def markMessagesAsRead (db : DB) (senderId recipientId : String) (now : Nat) : DB :=
  { db with
    messages := db.messages.map fun m =>
      if m.sender_id == senderId && m.recipient_id == recipientId && m.read_at == none then
        { m with read_at := some now }
      else
        m }

/-! ## Group service (`group.service.ts`) -/

/-- The client-side `Group` model returned by `getGroups` (stored columns
plus the service-filled `member_count` and `is_member`). -/
structure Group where
  id : String
  name : String
  city : Option String
  member_count : Nat
  is_member : Bool
deriving DecidableEq

/-- `getGroups` of `group.service.ts`: loads the group rows (optionally
`or(city.eq.c, city.is.null)`), loads the user's membership rows, and maps
every group with `member_count: 0` and the membership flag. -/
def getGroups (db : DB) (userId : String) (city : Option String) : List Group :=
  let rows : List GroupRow := match city with
    | some c => db.groups.filter fun g => g.city == some c || g.city == none
    | none => db.groups
  let memberGroupIds := (db.group_members.filter fun m => m.user_id == userId).map
    GroupMember.group_id
  rows.map fun g =>
    { id := g.id
      name := g.name
      city := g.city
      member_count := 0
      is_member := memberGroupIds.contains g.id }

/-- The store-side insert into `group_messages`: enforces the content
CHECK constraint (same bounds as direct messages). -/
def insertGroupMessage (db : DB) (senderId groupId content : String) (now : Nat) :
    Except String (GroupMessage × DB) :=
  if contentLengthOk content then
    let msg : GroupMessage := ⟨groupId, senderId, content, now, none⟩
    .ok (msg, { db with group_messages := db.group_messages ++ [msg] })
  else
    .error checkViolationMessage

/-- `sendGroupMessage` of `group.service.ts`: inserts and returns the
persisted row, re-throwing any store error.  (The source has no
application-level length check; the store's CHECK constraint is the only
content validation.  The denormalized `sender` join is display-only and
omitted.) -/
def sendGroupMessage (db : DB) (userId groupId content : String) (now : Nat) :
    Except String (GroupMessage × DB) :=
  insertGroupMessage db userId groupId content now

/-- Ascending creation-time order on group messages
(`order('created_at', { ascending: true })`). -/
def gmsgAsc (a b : GroupMessage) : Prop := a.created_at ≤ b.created_at

instance : DecidableRel gmsgAsc := fun _ _ => Nat.decLe _ _

instance : IsTotal GroupMessage gmsgAsc := ⟨fun a b => Nat.le_total a.created_at b.created_at⟩

instance : IsTrans GroupMessage gmsgAsc := ⟨fun _ _ _ h1 h2 => Nat.le_trans h1 h2⟩

/-- `getGroupMessages` of `group.service.ts`: the group's rows visible to
the (authorised) caller, oldest first.  The `deleted_at IS NULL` filter is
the row-level-security SELECT policy on `group_messages` in
`supabase_schema.sql` ("Group members can read group messages ... AND
deleted_at IS NULL"); the sender join is display-only and omitted. -/
def getGroupMessages (db : DB) (groupId : String) : List GroupMessage :=
  List.insertionSort gmsgAsc
    (db.group_messages.filter fun m => m.group_id == groupId && m.deleted_at == none)

/-! ## Candidate filter (`matching.service.ts`, `getPotentialMatches`) -/

/-- The candidate projection returned by `getPotentialMatches` (the fields
the embedded profile rows carry). -/
structure PotentialMatch where
  id : String
  name : String
  city : String
deriving DecidableEq

/-- The `swiped_id`s of the requester's swipe rows (either direction). -/
def swipedIdsOf (db : DB) (userId : String) : List String :=
  ((db.swipes.filter fun s => s.swiper_id == userId).map Swipe.swiped_id)

/-- `getPotentialMatches` of `matching.service.ts`: loads the requester's
profile (error if absent), builds the exclusion set
`[userId, ...swipedIds]`, queries same-city profiles outside the exclusion
set capped at `limit`, and on an empty result falls back to any-city
profiles outside the exclusion set capped at `limit`. -/
def getPotentialMatches (db : DB) (userId : String) (limit : Nat) :
    Except String (List PotentialMatch) :=
  match db.profiles.find? fun p => p.id == userId with
  | none => .error "Could not fetch current user."
  | some currentUser =>
    let excludeIds := userId :: swipedIdsOf db userId
    let profiles :=
      (db.profiles.filter fun p =>
        p.city == currentUser.city && !excludeIds.contains p.id).take limit
    let toPM : Profile → PotentialMatch := fun p => ⟨p.id, p.name, p.city⟩
    if profiles.isEmpty then
      let fallback :=
        (db.profiles.filter fun p => !excludeIds.contains p.id).take limit
      .ok (fallback.map toPM)
    else
      .ok (profiles.map toPM)

/-! ## Properties of the identifier order -/

theorem strLtB_irrefl : ∀ as, strLtB as as = false
  | [] => rfl
  | _ :: as => by simp [strLtB, strLtB_irrefl as]

theorem strLtB_asymm : ∀ as bs, strLtB as bs = true → strLtB bs as = false
  | [], [] => by simp [strLtB]
  | [], _ :: _ => by simp [strLtB]
  | _ :: _, [] => by simp [strLtB]
  | a :: as, b :: bs => by
    simp only [strLtB]
    rcases lt_trichotomy a b with h | h | h
    · simp [h, lt_asymm h]
    · subst h
      simp only [lt_irrefl, if_false]
      exact strLtB_asymm as bs
    · simp [h, lt_asymm h]

theorem strLtB_connex : ∀ as bs, as ≠ bs → strLtB as bs = true ∨ strLtB bs as = true
  | [], [] => fun h => absurd rfl h
  | [], _ :: _ => fun _ => .inl (by simp [strLtB])
  | _ :: _, [] => fun _ => .inr (by simp [strLtB])
  | a :: as, b :: bs => fun h => by
    rcases lt_trichotomy a b with hab | hab | hab
    · exact .inl (by simp [strLtB, hab])
    · subst hab
      have hne : as ≠ bs := fun he => h (by rw [he])
      rcases strLtB_connex as bs hne with h1 | h1
      · exact .inl (by simp [strLtB, lt_irrefl, h1])
      · exact .inr (by simp [strLtB, lt_irrefl, h1])
    · exact .inr (by simp [strLtB, hab, lt_asymm hab])

theorem str_data_inj {a b : String} (h : a.data = b.data) : a = b := by
  cases a; cases b; exact congrArg String.mk h

theorem strLt_irrefl (a : String) : strLt a a = false := strLtB_irrefl a.data

theorem strLt_asymm {a b : String} (h : strLt a b = true) : strLt b a = false :=
  strLtB_asymm _ _ h

theorem strLt_connex {a b : String} (h : a ≠ b) :
    strLt a b = true ∨ strLt b a = true :=
  strLtB_connex _ _ fun hd => h (str_data_inj hd)

theorem strLt_ne {a b : String} (h : strLt a b = true) : a ≠ b := by
  intro he
  subst he
  rw [strLt_irrefl] at h
  cases h

/-- The canonical match row for an unordered user pair. -/
def canonPair (A B : String) : MatchRow := ⟨strMin A B, strMax A B⟩

theorem strMin_strMax_of_lt {A B : String} (h : strLt A B = true) :
    strMin A B = A ∧ strMax A B = B := by
  unfold strMin strMax strLe
  simp [h]

theorem strMin_strMax_of_gt {A B : String} (h : strLt B A = true) :
    strMin A B = B ∧ strMax A B = A := by
  unfold strMin strMax strLe
  have h1 : strLt A B = false := strLtB_asymm _ _ h
  have h2 : (A == B) = false := beq_eq_false_iff_ne.mpr fun he => strLt_ne h he.symm
  simp [h1, h2]

theorem strMin_lt_strMax {A B : String} (hne : A ≠ B) :
    strLt (strMin A B) (strMax A B) = true := by
  rcases strLt_connex hne with h | h
  · rw [(strMin_strMax_of_lt h).1, (strMin_strMax_of_lt h).2]; exact h
  · rw [(strMin_strMax_of_gt h).1, (strMin_strMax_of_gt h).2]; exact h

theorem canonPair_comm {A B : String} (hne : A ≠ B) : canonPair B A = canonPair A B := by
  unfold canonPair
  rcases strLt_connex hne with h | h
  · rw [(strMin_strMax_of_lt h).1, (strMin_strMax_of_lt h).2,
      (strMin_strMax_of_gt h).1, (strMin_strMax_of_gt h).2]
  · rw [(strMin_strMax_of_lt h).1, (strMin_strMax_of_lt h).2,
      (strMin_strMax_of_gt h).1, (strMin_strMax_of_gt h).2]

/-! ## Step lemmas for the swipe recorder -/

theorem hasSwipe_afterSwipe (db : DB) (a b x y : String) (d : Direction) :
    hasSwipe (afterSwipe db a b d) x y
      = (hasSwipe db x y || (a == x && b == y)) := by
  simp [hasSwipe, afterSwipe, List.any_append]

theorem hasRightSwipe_afterSwipe (db : DB) (a b x y : String) (d : Direction) :
    hasRightSwipe (afterSwipe db a b d) x y
      = (hasRightSwipe db x y || (a == x && b == y && d == .right)) := by
  simp [hasRightSwipe, afterSwipe, List.any_append]

theorem hasRightSwipe_eq_false {db : DB} {a b : String}
    (h : hasSwipe db a b = false) : hasRightSwipe db a b = false := by
  rw [hasSwipe] at h
  rw [hasRightSwipe]
  rw [List.any_eq_false] at h ⊢
  intro s hs
  have hne := h s hs
  simp only [Bool.and_eq_true, not_and] at hne ⊢
  intro h1 _
  exact absurd h1.2 (hne h1.1)

theorem createMatch_fresh (db : DB) (A B : String) (hne : A ≠ B)
    (hm : hasMatch db (strMin A B) (strMax A B) = false) :
    createMatch db A B =
      .ok (canonPair A B, { db with matchRows := db.matchRows ++ [canonPair A B] }) := by
  unfold createMatch canonPair
  simp [strMin_lt_strMax hne, hm]

theorem createMatch_duplicate (db : DB) (A B : String) (hne : A ≠ B)
    (hm : hasMatch db (strMin A B) (strMax A B) = true) :
    createMatch db A B = .error uniqueViolationMessage := by
  unfold createMatch
  simp [strMin_lt_strMax hne, hm]

theorem recordSwipe_duplicate {db : DB} {s t : String} (d : Direction)
    (h : hasSwipe db s t = true) : recordSwipe db s t d = .ok (none, db) := by
  unfold recordSwipe
  simp [h]

theorem recordSwipe_fresh_left (db : DB) (A B : String)
    (h : hasSwipe db A B = false) :
    recordSwipe db A B .left = .ok (none, afterSwipe db A B .left) := by
  unfold recordSwipe
  simp [h]

theorem recordSwipe_right_noRecip (db : DB) (A B : String)
    (hAB : hasSwipe db A B = false) (hBA : hasRightSwipe db B A = false)
    (hne : A ≠ B) :
    recordSwipe db A B .right = .ok (none, afterSwipe db A B .right) := by
  unfold recordSwipe
  simp [hAB, hasRightSwipe_afterSwipe, hBA, hne]

theorem recordSwipe_right_recip (db : DB) (A B : String)
    (hAB : hasSwipe db A B = false) (hBA : hasRightSwipe db B A = true)
    (hne : A ≠ B) (hm : hasMatch db (strMin A B) (strMax A B) = false) :
    recordSwipe db A B .right =
      .ok (some (canonPair A B),
        { afterSwipe db A B .right with
          matchRows := db.matchRows ++ [canonPair A B] }) := by
  unfold recordSwipe
  simp only [hAB, Bool.false_eq_true, if_false]
  rw [hasRightSwipe_afterSwipe]
  rw [hBA]
  simp only [Bool.true_or, if_true]
  rw [createMatch_fresh (afterSwipe db A B .right) A B hne hm]
  rfl

theorem recordSwipe_right_dupMatch (db : DB) (A B : String)
    (hAB : hasSwipe db A B = false) (hBA : hasRightSwipe db B A = true)
    (hne : A ≠ B) (hm : hasMatch db (strMin A B) (strMax A B) = true) :
    recordSwipe db A B .right = .error uniqueViolationMessage := by
  unfold recordSwipe
  simp only [hAB, Bool.false_eq_true, if_false]
  rw [hasRightSwipe_afterSwipe]
  rw [hBA]
  simp only [Bool.true_or, if_true]
  rw [createMatch_duplicate (afterSwipe db A B .right) A B hne hm]

@[simp] theorem Direction.beq_self (d : Direction) : (d == d) = true := by
  cases d <;> rfl

theorem strMin_comm {A B : String} (hne : A ≠ B) : strMin A B = strMin B A := by
  rcases strLt_connex hne with h | h
  · rw [(strMin_strMax_of_lt h).1, (strMin_strMax_of_gt h).1]
  · rw [(strMin_strMax_of_gt h).1, (strMin_strMax_of_lt h).1]

theorem strMax_comm {A B : String} (hne : A ≠ B) : strMax A B = strMax B A := by
  rcases strLt_connex hne with h | h
  · rw [(strMin_strMax_of_lt h).2, (strMin_strMax_of_gt h).2]
  · rw [(strMin_strMax_of_gt h).2, (strMin_strMax_of_lt h).2]

/-- The pair predicate of `countMatchesForPair` holds at the canonical row. -/
theorem predPair_canon {A B : String} (hne : A ≠ B) :
    ((canonPair A B).user1_id == A && (canonPair A B).user2_id == B ||
      (canonPair A B).user1_id == B && (canonPair A B).user2_id == A) = true := by
  unfold canonPair
  rcases strLt_connex hne with h | h
  · rw [(strMin_strMax_of_lt h).1, (strMin_strMax_of_lt h).2]; simp
  · rw [(strMin_strMax_of_gt h).1, (strMin_strMax_of_gt h).2]; simp

theorem hasMatch_false_of_countPair_zero (db : DB) (A B : String)
    (h : countMatchesForPair db A B = 0) :
    hasMatch db (strMin A B) (strMax A B) = false := by
  unfold countMatchesForPair at h
  rw [List.length_eq_zero] at h
  unfold hasMatch
  rw [List.any_eq_false]
  intro m hm
  have hnot : ¬((m.user1_id == A && m.user2_id == B) ||
      (m.user1_id == B && m.user2_id == A)) = true := by
    intro hp
    have hmem : m ∈ db.matchRows.filter
        (fun m => (m.user1_id == A && m.user2_id == B) ||
          (m.user1_id == B && m.user2_id == A)) :=
      List.mem_filter.mpr ⟨hm, hp⟩
    rw [h] at hmem
    cases hmem
  unfold strMin strMax
  cases hle : strLe A B
  · simp only [Bool.false_eq_true, if_false]
    intro hc
    exact hnot (by rw [hc]; simp)
  · simp only [if_true]
    intro hc
    exact hnot (by rw [hc]; simp)

theorem countMatchesForPair_append_canon (db dbX : DB) (A B : String) (hne : A ≠ B)
    (hrows : dbX.matchRows = db.matchRows ++ [canonPair A B])
    (hM : countMatchesForPair db A B = 0) :
    countMatchesForPair dbX A B = 1 := by
  unfold countMatchesForPair at hM ⊢
  rw [hrows, List.filter_append, List.length_append, hM]
  simp [List.filter_cons, predPair_canon hne]

/-- With `UNIQUE(swiper_id, swiped_id)` in force, an existing key has
exactly one row. -/
theorem filter_key_length_eq_one (l : List Swipe) (a b : String)
    (hnd : (l.map fun s => (s.swiper_id, s.swiped_id)).Nodup)
    (hany : (l.any fun s => s.swiper_id == a && s.swiped_id == b) = true) :
    (l.filter fun s => s.swiper_id == a && s.swiped_id == b).length = 1 := by
  induction l with
  | nil => simp at hany
  | cons x xs ih =>
    rw [List.map_cons, List.nodup_cons] at hnd
    obtain ⟨hx, hxs⟩ := hnd
    cases hxk : (x.swiper_id == a && x.swiped_id == b) with
    | true =>
      have hnone : xs.filter (fun s => s.swiper_id == a && s.swiped_id == b) = [] := by
        rw [List.filter_eq_nil_iff]
        intro s hs hp
        simp only [Bool.and_eq_true, beq_iff_eq] at hp hxk
        exact hx (by
          rw [hxk.1, hxk.2]
          exact List.mem_map.mpr ⟨s, hs, by rw [hp.1, hp.2]⟩)
      simp [List.filter_cons, hxk, hnone]
    | false =>
      simp only [List.filter_cons, hxk, Bool.false_eq_true, if_false]
      apply ih hxs
      simp only [List.any_cons, hxk, Bool.false_or] at hany
      exact hany

/-! ## Claims C1, C2, C3, C6: the swipe recorder and match detector -/

/-- C1: for every two distinct users `A` and `B`, on a store with no prior
swipes or matches for the pair, running `recordSwipe(A,B,right)` and
`recordSwipe(B,A,right)` in either order leaves exactly one Match row for
the pair, stored in canonical order (the smaller identifier first), and
both orders produce the same Match row and the same matches table. -/
theorem match_symmetry (db : DB) (A B : String) (hne : A ≠ B)
    (hAB : hasSwipe db A B = false) (hBA : hasSwipe db B A = false)
    (hM : countMatchesForPair db A B = 0) :
    ∃ m : MatchRow, m.user1_id = strMin A B ∧ m.user2_id = strMax A B ∧
      ∃ dbAB dbBA : DB,
        recordSwipe db A B .right = .ok (none, afterSwipe db A B .right) ∧
        recordSwipe (afterSwipe db A B .right) B A .right = .ok (some m, dbAB) ∧
        recordSwipe db B A .right = .ok (none, afterSwipe db B A .right) ∧
        recordSwipe (afterSwipe db B A .right) A B .right = .ok (some m, dbBA) ∧
        dbAB.matchRows = db.matchRows ++ [m] ∧
        dbBA.matchRows = db.matchRows ++ [m] ∧
        countMatchesForPair dbAB A B = 1 ∧
        countMatchesForPair dbBA A B = 1 := by
  have hABf : (A == B) = false := beq_eq_false_iff_ne.mpr hne
  have hBAf : (B == A) = false := beq_eq_false_iff_ne.mpr hne.symm
  have hmin := hasMatch_false_of_countPair_zero db A B hM
  -- order A-then-B
  have s1 : recordSwipe db A B .right = .ok (none, afterSwipe db A B .right) :=
    recordSwipe_right_noRecip db A B hAB (hasRightSwipe_eq_false hBA) hne
  have h1 : hasSwipe (afterSwipe db A B .right) B A = false := by
    rw [hasSwipe_afterSwipe]; simp [hBA, hABf]
  have h2 : hasRightSwipe (afterSwipe db A B .right) A B = true := by
    rw [hasRightSwipe_afterSwipe]; simp
  have h3 : hasMatch (afterSwipe db A B .right) (strMin B A) (strMax B A) = false := by
    rw [← strMin_comm hne, ← strMax_comm hne]
    exact hmin
  have s2 := recordSwipe_right_recip (afterSwipe db A B .right) B A h1 h2 hne.symm h3
  rw [canonPair_comm hne] at s2
  -- order B-then-A
  have s1' : recordSwipe db B A .right = .ok (none, afterSwipe db B A .right) :=
    recordSwipe_right_noRecip db B A hBA (hasRightSwipe_eq_false hAB) hne.symm
  have h1' : hasSwipe (afterSwipe db B A .right) A B = false := by
    rw [hasSwipe_afterSwipe]; simp [hAB, hBAf]
  have h2' : hasRightSwipe (afterSwipe db B A .right) B A = true := by
    rw [hasRightSwipe_afterSwipe]; simp
  have h3' : hasMatch (afterSwipe db B A .right) (strMin A B) (strMax A B) = false :=
    hmin
  have s2' := recordSwipe_right_recip (afterSwipe db B A .right) A B h1' h2' hne h3'
  refine ⟨canonPair A B, rfl, rfl, _, _, s1, s2, s1', s2', rfl, rfl, ?_, ?_⟩
  · exact countMatchesForPair_append_canon db _ A B hne rfl hM
  · exact countMatchesForPair_append_canon db _ A B hne rfl hM

/-- Concrete store used in the witnesses for C1- and C2-adjacent
theorems: user `b` has already right-swiped user `a`, and the canonical
match row for the pair already exists. -/
def dbDupMatch : DB :=
  { emptyDB with swipes := [⟨"b", "a", .right⟩], matchRows := [⟨"a", "b"⟩] }

/-- C1 witness: the symmetry theorem instantiated on the empty store with
users `a` and `b`. -/
theorem match_symmetry_witness :
    ∃ m : MatchRow, m.user1_id = strMin "a" "b" ∧ m.user2_id = strMax "a" "b" ∧
      ∃ dbAB dbBA : DB,
        recordSwipe emptyDB "a" "b" .right = .ok (none, afterSwipe emptyDB "a" "b" .right) ∧
        recordSwipe (afterSwipe emptyDB "a" "b" .right) "b" "a" .right = .ok (some m, dbAB) ∧
        recordSwipe emptyDB "b" "a" .right = .ok (none, afterSwipe emptyDB "b" "a" .right) ∧
        recordSwipe (afterSwipe emptyDB "b" "a" .right) "a" "b" .right = .ok (some m, dbBA) ∧
        dbAB.matchRows = emptyDB.matchRows ++ [m] ∧
        dbBA.matchRows = emptyDB.matchRows ++ [m] ∧
        countMatchesForPair dbAB "a" "b" = 1 ∧
        countMatchesForPair dbBA "a" "b" = 1 :=
  match_symmetry emptyDB "a" "b" (by decide) (by rfl) (by rfl) (by rfl)

/-- C2 counterexample: on a store already holding the canonical match row
for the pair, a right swipe that detects the reciprocal right swipe runs
`createMatch`, whose insert hits the uniqueness violation, and
`recordSwipe` propagates it as an error instead of returning the existing
Match row. -/
theorem recordSwipe_duplicate_match_cex :
    recordSwipe dbDupMatch "a" "b" .right = .error uniqueViolationMessage := by
  rfl

/-- C2 (amended): when the insert of the canonical Match fails because a
Match row for the pair already exists, `recordSwipe` does not treat this
as success: the uniqueness violation is thrown and propagated as an
error, and the existing Match row is not returned. -/
theorem recordSwipe_duplicate_match_raises (db : DB) (A B : String) (hne : A ≠ B)
    (hAB : hasSwipe db A B = false) (hBA : hasRightSwipe db B A = true)
    (hm : hasMatch db (strMin A B) (strMax A B) = true) :
    recordSwipe db A B .right = .error uniqueViolationMessage ∧
      ∀ out : Option MatchRow × DB, recordSwipe db A B .right ≠ .ok out := by
  refine ⟨recordSwipe_right_dupMatch db A B hAB hBA hne hm, ?_⟩
  intro out hout
  rw [recordSwipe_right_dupMatch db A B hAB hBA hne hm] at hout
  cases hout

/-- C2 witness for the amended statement, on the concrete duplicate-match
store. -/
theorem recordSwipe_duplicate_match_raises_witness :
    recordSwipe dbDupMatch "a" "b" .right = .error uniqueViolationMessage ∧
      ∀ out : Option MatchRow × DB, recordSwipe dbDupMatch "a" "b" .right ≠ .ok out :=
  recordSwipe_duplicate_match_raises dbDupMatch "a" "b" (by decide)
    (by rfl) (by rfl) (by rfl)

/-- C3: if a Swipe row already exists for the ordered pair
`(swiper, target)`, `recordSwipe` returns `null` without error and without
touching the store (so, under the store's uniqueness constraint, exactly
one Swipe row for the pair remains, and no Match is checked for, created
or returned). -/
theorem duplicate_swipe_idempotent (db : DB) (s t : String) (d : Direction)
    (hdup : hasSwipe db s t = true)
    (huniq : (db.swipes.map fun s => (s.swiper_id, s.swiped_id)).Nodup) :
    recordSwipe db s t d = .ok (none, db) ∧ countSwipesFor db s t = 1 := by
  refine ⟨recordSwipe_duplicate d hdup, ?_⟩
  unfold countSwipesFor
  exact filter_key_length_eq_one db.swipes s t huniq hdup

/-- Store with a single existing `a → b` right swipe. -/
def dbOneSwipe : DB := { emptyDB with swipes := [⟨"a", "b", .right⟩] }

/-- C3 witness: the duplicate right swipe on the one-swipe store. -/
theorem duplicate_swipe_idempotent_witness :
    recordSwipe dbOneSwipe "a" "b" .right = .ok (none, dbOneSwipe) ∧
      countSwipesFor dbOneSwipe "a" "b" = 1 :=
  duplicate_swipe_idempotent dbOneSwipe "a" "b" .right (by rfl) (by decide)

/-- C6: for distinct users with no prior swipes between them, a left swipe
returns `null` and creates no Match row, and a right swipe with no
reciprocal right swipe in the store also returns `null` and creates no
Match row (only the new Swipe row is inserted). -/
theorem no_match_on_left_or_single_right (db : DB) (A B : String) (hne : A ≠ B)
    (hAB : hasSwipe db A B = false) (hBA : hasSwipe db B A = false) :
    (recordSwipe db A B .left = .ok (none, afterSwipe db A B .left) ∧
      (afterSwipe db A B .left).matchRows = db.matchRows) ∧
    (recordSwipe db A B .right = .ok (none, afterSwipe db A B .right) ∧
      (afterSwipe db A B .right).matchRows = db.matchRows) :=
  ⟨⟨recordSwipe_fresh_left db A B hAB, rfl⟩,
   ⟨recordSwipe_right_noRecip db A B hAB (hasRightSwipe_eq_false hBA) hne, rfl⟩⟩

/-- C6 witness: both directions on the empty store. -/
theorem no_match_on_left_or_single_right_witness :
    (recordSwipe emptyDB "a" "b" .left = .ok (none, afterSwipe emptyDB "a" "b" .left) ∧
      (afterSwipe emptyDB "a" "b" .left).matchRows = emptyDB.matchRows) ∧
    (recordSwipe emptyDB "a" "b" .right = .ok (none, afterSwipe emptyDB "a" "b" .right) ∧
      (afterSwipe emptyDB "a" "b" .right).matchRows = emptyDB.matchRows) :=
  no_match_on_left_or_single_right emptyDB "a" "b" (by decide) (by rfl) (by rfl)

/-! ## Claim C5: content-length bounds on message sends -/

@[simp] theorem some_beq_none_nat (t : Nat) : ((some t : Option Nat) == none) = false := rfl

/-- C5: both `sendMessage` and `sendGroupMessage` reject content of length
0 and content of length 2001 or more without persisting anything, and
accept every length from 1 through 2000, persisting and returning the
message.  (Length 0 and, for group messages, every out-of-bounds length,
is rejected by the store's CHECK constraint; `sendMessage` additionally
rejects over-length content before reaching the store.) -/
theorem content_bounds (db : DB) (s r g content : String) (now : Nat) :
    (content.length = 0 →
      sendMessage db s r content now = .error checkViolationMessage ∧
      sendGroupMessage db s g content now = .error checkViolationMessage) ∧
    (2001 ≤ content.length →
      sendMessage db s r content now = .error "Message too long" ∧
      sendGroupMessage db s g content now = .error checkViolationMessage) ∧
    (1 ≤ content.length → content.length ≤ 2000 →
      sendMessage db s r content now =
        .ok (⟨s, r, content, none, now⟩,
          { db with messages := db.messages ++ [⟨s, r, content, none, now⟩] }) ∧
      sendGroupMessage db s g content now =
        .ok (⟨g, s, content, now, none⟩,
          { db with group_messages := db.group_messages ++ [⟨g, s, content, now, none⟩] })) := by
  refine ⟨fun h0 => ⟨?_, ?_⟩, fun h1 => ⟨?_, ?_⟩, fun h2 h3 => ⟨?_, ?_⟩⟩
  · have hlen : contentLengthOk content = false := by
      unfold contentLengthOk; simp [h0]
    unfold sendMessage insertMessage
    rw [if_neg (by omega), if_neg (by simp [hlen])]
  · have hlen : contentLengthOk content = false := by
      unfold contentLengthOk; simp [h0]
    unfold sendGroupMessage insertGroupMessage
    rw [if_neg (by simp [hlen])]
  · unfold sendMessage
    rw [if_pos (by omega)]
  · have hlen : contentLengthOk content = false := by
      unfold contentLengthOk; simp; omega
    unfold sendGroupMessage insertGroupMessage
    rw [if_neg (by simp [hlen])]
  · have hlen : contentLengthOk content = true := by
      unfold contentLengthOk; simp; omega
    unfold sendMessage insertMessage
    rw [if_neg (by omega), if_pos (by simp [hlen])]
  · have hlen : contentLengthOk content = true := by
      unfold contentLengthOk; simp; omega
    unfold sendGroupMessage insertGroupMessage
    rw [if_pos (by simp [hlen])]

/-- A 2001-character content string for the over-length witness case. -/
def longContent : String := String.mk (List.replicate 2001 'x')

/-- C5 witness: empty content, a 2001-character content and a one-character
content, on the empty store. -/
theorem content_bounds_witness :
    (sendMessage emptyDB "a" "b" "" 7 = .error checkViolationMessage ∧
      sendGroupMessage emptyDB "a" "g" "" 7 = .error checkViolationMessage) ∧
    (sendMessage emptyDB "a" "b" longContent 7 = .error "Message too long" ∧
      sendGroupMessage emptyDB "a" "g" longContent 7 = .error checkViolationMessage) ∧
    (sendMessage emptyDB "a" "b" "hi" 7 =
        .ok (⟨"a", "b", "hi", none, 7⟩,
          { emptyDB with messages := emptyDB.messages ++ [⟨"a", "b", "hi", none, 7⟩] }) ∧
      sendGroupMessage emptyDB "a" "g" "hi" 7 =
        .ok (⟨"g", "a", "hi", 7, none⟩,
          { emptyDB with
            group_messages := emptyDB.group_messages ++ [⟨"g", "a", "hi", 7, none⟩] })) := by
  have hlong : longContent.length = 2001 := by
    unfold longContent
    rw [String.length]
    exact List.length_replicate 2001 'x'
  exact ⟨(content_bounds emptyDB "a" "b" "g" "" 7).1 rfl,
    (content_bounds emptyDB "a" "b" "g" longContent 7).2.1 (by omega),
    (content_bounds emptyDB "a" "b" "g" "hi" 7).2.2 (by decide) (by decide)⟩

/-! ## Claim C9: marking a thread read -/

/-- C9: `markMessagesAsRead` sets the read timestamp on exactly the
messages from `senderId` to `recipientId` with a null read timestamp,
keeps every already-set read timestamp (and the whole message) unchanged,
is the identity when no message matches, and re-invoking it is a no-op. -/
theorem markThreadRead_spec (db : DB) (s r : String) (now now2 : Nat) :
    ((markMessagesAsRead db s r now).messages.length = db.messages.length) ∧
    (∀ i : Nat, (markMessagesAsRead db s r now).messages[i]? =
        (db.messages[i]?).map fun m =>
          if m.sender_id == s && m.recipient_id == r && m.read_at == none then
            { m with read_at := some now }
          else m) ∧
    (∀ i : Nat, ∀ m : Message, ∀ t : Nat,
      db.messages[i]? = some m → m.read_at = some t →
        (markMessagesAsRead db s r now).messages[i]? = some m) ∧
    ((∀ m ∈ db.messages,
        (m.sender_id == s && m.recipient_id == r && m.read_at == none) = false) →
      markMessagesAsRead db s r now = db) ∧
    (markMessagesAsRead (markMessagesAsRead db s r now) s r now2 =
      markMessagesAsRead db s r now) := by
  refine ⟨by simp [markMessagesAsRead], fun i => ?_, fun i m t h1 h2 => ?_, fun hnone => ?_, ?_⟩
  · simp [markMessagesAsRead, List.getElem?_map]
  · simp [markMessagesAsRead, List.getElem?_map, h1, h2]
  · have hmap : (db.messages.map fun m =>
        if m.sender_id == s && m.recipient_id == r && m.read_at == none then
          { m with read_at := some now } else m) = db.messages := by
      conv_rhs => rw [← List.map_id db.messages]
      refine List.map_congr_left fun m hm => ?_
      rw [hnone m hm]
      simp
    unfold markMessagesAsRead
    rw [hmap]
  · unfold markMessagesAsRead
    simp only [List.map_map]
    rw [List.map_congr_left fun m _ => ?_]
    cases hp : (m.sender_id == s && m.recipient_id == r && m.read_at == none) with
    | true => simp [Function.comp, hp]
    | false => simp [Function.comp, hp]

/-- Store with one unread and one read message from `a` to `u`. -/
def dbMsgs : DB :=
  { emptyDB with
    messages := [⟨"a", "u", "hello", none, 1⟩, ⟨"a", "u", "hey", some 2, 1⟩] }

/-- C9 witness: the specification applied to the two-message store. -/
theorem markThreadRead_spec_witness :
    ((markMessagesAsRead dbMsgs "a" "u" 5).messages.length = dbMsgs.messages.length) ∧
    (∀ i : Nat, ∀ m : Message, ∀ t : Nat,
      dbMsgs.messages[i]? = some m → m.read_at = some t →
        (markMessagesAsRead dbMsgs "a" "u" 5).messages[i]? = some m) ∧
    (markMessagesAsRead (markMessagesAsRead dbMsgs "a" "u" 5) "a" "u" 9 =
      markMessagesAsRead dbMsgs "a" "u" 5) := by
  refine ⟨(markThreadRead_spec dbMsgs "a" "u" 5 9).1,
    (markThreadRead_spec dbMsgs "a" "u" 5 9).2.2.1,
    (markThreadRead_spec dbMsgs "a" "u" 5 9).2.2.2.2⟩

/-! ## Claim C10: `getGroups` always reports a zero member count -/

/-- C10: every group returned by `getGroups` carries `member_count = 0`,
for every user and store state; the count is never derived from the
`group_members` table. -/
theorem getGroups_member_count_zero (db : DB) (u : String) (c : Option String) :
    ∀ g ∈ getGroups db u c, g.member_count = 0 := by
  intro g hg
  unfold getGroups at hg
  obtain ⟨row, _, rfl⟩ := List.mem_map.mp hg
  rfl

/-- Store with one group and one membership row for it. -/
def dbGroups : DB :=
  { emptyDB with
    groups := [⟨"g1", "Newborn", none⟩]
    group_members := [⟨"g1", "u"⟩] }

/-- C10 witness: the group comes back with `member_count = 0` despite its
membership row. -/
theorem getGroups_member_count_zero_witness :
    ∃ g ∈ getGroups dbGroups "u" none, g.member_count = 0 ∧ g.is_member = true :=
  ⟨⟨"g1", "Newborn", none, 0, true⟩, by decide,
    getGroups_member_count_zero dbGroups "u" none _ (by decide), rfl⟩

/-! ## Claim C7: group message history -/

/-- C7: `getGroupMessages` returns exactly the group's non-soft-deleted
messages, in ascending creation-time order; soft-deleted messages never
appear. -/
theorem getGroupMessages_spec (db : DB) (g : String) :
    (getGroupMessages db g).Perm
      (db.group_messages.filter fun m => m.group_id == g && m.deleted_at == none) ∧
    List.Sorted gmsgAsc (getGroupMessages db g) ∧
    (∀ m ∈ getGroupMessages db g, m.group_id = g ∧ m.deleted_at = none) ∧
    (∀ m ∈ db.group_messages, m.group_id = g → m.deleted_at = none →
      m ∈ getGroupMessages db g) := by
  have hperm : (getGroupMessages db g).Perm
      (db.group_messages.filter fun m => m.group_id == g && m.deleted_at == none) :=
    List.perm_insertionSort gmsgAsc _
  refine ⟨hperm, List.sorted_insertionSort _ _, fun m hm => ?_, fun m hm h1 h2 => ?_⟩
  · have hmem := hperm.mem_iff.mp hm
    have hp := (List.mem_filter.mp hmem).2
    simp only [Bool.and_eq_true, beq_iff_eq] at hp
    exact hp
  · refine hperm.mem_iff.mpr (List.mem_filter.mpr ⟨hm, ?_⟩)
    simp [h1, h2]

/-- Store with group messages out of order, one soft-deleted, one in
another group. -/
def dbGM : DB :=
  { emptyDB with
    group_messages :=
      [⟨"g1", "a", "new", 5, none⟩, ⟨"g1", "b", "gone", 3, some 9⟩,
       ⟨"g1", "a", "old", 1, none⟩, ⟨"g2", "c", "other", 2, none⟩] }

/-- C7 witness: the specification applied to the concrete store. -/
theorem getGroupMessages_spec_witness :
    List.Sorted gmsgAsc (getGroupMessages dbGM "g1") ∧
    (⟨"g1", "a", "old", 1, none⟩ : GroupMessage) ∈ getGroupMessages dbGM "g1" ∧
    (∀ m ∈ getGroupMessages dbGM "g1", m.group_id = "g1" ∧ m.deleted_at = none) :=
  ⟨(getGroupMessages_spec dbGM "g1").2.1,
    (getGroupMessages_spec dbGM "g1").2.2.2 _ (by simp [dbGM, emptyDB]) rfl rfl,
    (getGroupMessages_spec dbGM "g1").2.2.1⟩

/-! ## Claim C8: candidate exclusion -/

/-- An identifier outside the exclusion set is neither the requester nor
previously swiped on by the requester. -/
theorem not_in_exclude (db : DB) (U idv : String)
    (h : ((U :: swipedIdsOf db U).contains idv) = false) :
    idv ≠ U ∧ ∀ s ∈ db.swipes, s.swiper_id = U → s.swiped_id ≠ idv := by
  have h' : idv ∉ U :: swipedIdsOf db U := by simpa using h
  constructor
  · intro he
    exact h' (he ▸ List.mem_cons_self U _)
  · intro s hs hU he
    apply h'
    refine List.mem_cons_of_mem U ?_
    unfold swipedIdsOf
    exact List.mem_map.mpr ⟨s, List.mem_filter.mpr ⟨hs, by simp [hU]⟩, he⟩

/-- C8: no profile the requester has already swiped on (in either
direction) and no profile with the requester's own identifier appears in
the result of `getPotentialMatches`, in the same-city result and in the
any-city fallback alike. -/
theorem candidate_exclusion (db : DB) (U : String) (limit : Nat)
    (res : List PotentialMatch) (h : getPotentialMatches db U limit = .ok res) :
    ∀ p ∈ res, p.id ≠ U ∧ ∀ s ∈ db.swipes, s.swiper_id = U → s.swiped_id ≠ p.id := by
  unfold getPotentialMatches at h
  cases hfind : db.profiles.find? (fun p => p.id == U) with
  | none => rw [hfind] at h; cases h
  | some cu =>
    rw [hfind] at h
    dsimp only at h
    intro p hp
    split at h
    · -- fallback branch
      cases h
      obtain ⟨q, hq, rfl⟩ := List.mem_map.mp hp
      have hqf := List.mem_of_mem_take hq
      have hpred := (List.mem_filter.mp hqf).2
      rw [Bool.not_eq_eq_eq_not, Bool.not_true] at hpred
      exact not_in_exclude db U q.id hpred
    · -- same-city branch
      cases h
      obtain ⟨q, hq, rfl⟩ := List.mem_map.mp hp
      have hqf := List.mem_of_mem_take hq
      have hpred := (List.mem_filter.mp hqf).2
      rw [Bool.and_eq_true] at hpred
      have hcontains := hpred.2
      rw [Bool.not_eq_eq_eq_not, Bool.not_true] at hcontains
      exact not_in_exclude db U q.id hcontains

/-- Store for the C8 witness: requester `u` in city NY who has swiped on
`b`; profiles `b` (swiped), `c` (same city) and `d` (other city). -/
def dbCand : DB :=
  { emptyDB with
    profiles :=
      [⟨"u", "U", "NY"⟩, ⟨"b", "B", "NY"⟩, ⟨"c", "C", "NY"⟩, ⟨"d", "D", "LA"⟩]
    swipes := [⟨"u", "b", .left⟩] }

/-- C8 witness: the exclusion theorem applied to the concrete store (the
result contains only `c`), instantiated at that one returned profile. -/
theorem candidate_exclusion_witness :
    (PotentialMatch.mk "c" "C" "NY").id ≠ "u" ∧
      ∀ s ∈ dbCand.swipes, s.swiper_id = "u" →
        s.swiped_id ≠ (PotentialMatch.mk "c" "C" "NY").id :=
  candidate_exclusion dbCand "u" 20 [PotentialMatch.mk "c" "C" "NY"] (by rfl)
    (PotentialMatch.mk "c" "C" "NY") (List.mem_singleton.mpr rfl)

/-! ## Claim C4: unread-count conservation

The store enforces three invariants the aggregation relies on:
the `CHECK (user1_id < user2_id)` and `UNIQUE(user1_id, user2_id)`
constraints on `matches`, and the messages INSERT row-level-security
policy of `supabase_schema.sql` ("Users can send messages to matched
users"), under which every message row joins a matched pair.  Every state
the store admits satisfies them. -/

/-- `CHECK (user1_id < user2_id)` on `matches`. -/
def MatchesCanonical (db : DB) : Prop :=
  ∀ m ∈ db.matchRows, strLt m.user1_id m.user2_id = true

/-- `UNIQUE(user1_id, user2_id)` on `matches`. -/
def MatchesUnique (db : DB) : Prop :=
  (db.matchRows.map fun m => (m.user1_id, m.user2_id)).Nodup

/-- The messages INSERT policy: a message exists only between a matched
pair. -/
def MessagesMatched (db : DB) : Prop :=
  ∀ msg ∈ db.messages, ∃ m ∈ db.matchRows,
    (m.user1_id = msg.sender_id ∧ m.user2_id = msg.recipient_id) ∨
    (m.user1_id = msg.recipient_id ∧ m.user2_id = msg.sender_id)

theorem length_filter_or_disjoint {α : Type} (l : List α) (p q : α → Bool)
    (hd : ∀ a ∈ l, ¬(p a = true ∧ q a = true)) :
    (l.filter fun a => p a || q a).length = (l.filter p).length + (l.filter q).length := by
  induction l with
  | nil => rfl
  | cons x xs ih =>
    have hd' : ∀ a ∈ xs, ¬(p a = true ∧ q a = true) :=
      fun a ha => hd a (List.mem_cons_of_mem _ ha)
    have hx := hd x (List.mem_cons_self _ _)
    have ih' := ih hd'
    cases hp : p x with
    | true =>
      cases hq : q x with
      | true => exact absurd ⟨hp, hq⟩ hx
      | false =>
        simp only [List.filter_cons, hp, hq, Bool.true_or, if_true,
          Bool.false_eq_true, if_false, List.length_cons, ih']
        omega
    | false =>
      cases hq : q x with
      | true =>
        simp only [List.filter_cons, hp, hq, Bool.false_or, if_true,
          Bool.false_eq_true, if_false, List.length_cons, ih']
        omega
      | false =>
        simp only [List.filter_cons, hp, hq, Bool.false_or, Bool.false_eq_true,
          if_false, ih']

theorem sum_unread_eq (msgs : List Message) (U : String) :
    ∀ others : List String, others.Nodup →
      (others.map fun o => unreadFromList msgs o U).sum
        = (msgs.filter fun m =>
            others.contains m.sender_id &&
              (m.recipient_id == U && m.read_at == none)).length := by
  intro others
  induction others with
  | nil =>
    intro _
    simp [List.filter_eq_nil_iff]
  | cons o rest ih =>
    intro hnd
    rw [List.nodup_cons] at hnd
    obtain ⟨ho, hrest⟩ := hnd
    rw [List.map_cons, List.sum_cons, ih hrest]
    have hsplit : (msgs.filter fun m =>
        (o :: rest).contains m.sender_id && (m.recipient_id == U && m.read_at == none))
        = msgs.filter fun m =>
            (m.sender_id == o && m.recipient_id == U && m.read_at == none)
            || (rest.contains m.sender_id && (m.recipient_id == U && m.read_at == none)) := by
      apply List.filter_congr
      intro m _
      rw [List.contains_cons]
      cases m.sender_id == o <;> cases rest.contains m.sender_id <;>
        cases m.recipient_id == U <;> cases m.read_at == none <;> rfl
    have hdisj : ∀ a ∈ msgs,
        ¬((a.sender_id == o && a.recipient_id == U && a.read_at == none) = true ∧
          (rest.contains a.sender_id && (a.recipient_id == U && a.read_at == none)) = true) := by
      intro a _ hpq
      obtain ⟨hp, hq⟩ := hpq
      simp only [Bool.and_eq_true, beq_iff_eq] at hp hq
      apply ho
      have hmem : a.sender_id ∈ rest := by
        have := hq.1
        simpa using this
      rw [← hp.1.1]
      exact hmem
    rw [hsplit, length_filter_or_disjoint msgs _ _ hdisj]
    rfl

/-- On a canonical match row one of whose sides is `U`, the stored pair is
determined by the other side. -/
theorem pair_eq_of_mem_matchesOf (db : DB) (U : String) (hC : MatchesCanonical db)
    (m : MatchRow) (hm : m ∈ matchesOf db U) :
    (m.user1_id, m.user2_id) =
      if strLt U (otherOf U m) = true then (U, otherOf U m) else (otherOf U m, U) := by
  unfold matchesOf at hm
  have hmem := (List.mem_filter.mp hm).1
  have hcond := (List.mem_filter.mp hm).2
  have hcanon := hC m hmem
  cases h1 : (m.user1_id == U) with
  | true =>
    have he1 : m.user1_id = U := by simpa using h1
    have hother : otherOf U m = m.user2_id := by
      unfold otherOf
      rw [h1]
      rfl
    have hlt : strLt U m.user2_id = true := he1 ▸ hcanon
    rw [hother, he1, if_pos hlt]
  | false =>
    have he2 : m.user2_id = U := by
      rw [Bool.or_eq_true] at hcond
      rcases hcond with hc | hc
      · rw [h1] at hc; cases hc
      · simpa using hc
    have hother : otherOf U m = m.user1_id := by
      unfold otherOf
      rw [h1]
      rfl
    have hlt : strLt m.user1_id U = true := he2 ▸ hcanon
    have hnlt : strLt U m.user1_id = false := strLt_asymm hlt
    rw [hother, he2, if_neg (by rw [hnlt]; simp)]

/-- Under the canonical and uniqueness invariants, the "other party"
identifiers of a user's matches are pairwise distinct. -/
theorem others_nodup (db : DB) (U : String) (hC : MatchesCanonical db)
    (hU : MatchesUnique db) : ((matchesOf db U).map (otherOf U)).Nodup := by
  apply List.pairwise_map.mpr
  have hpw : db.matchRows.Pairwise
      (fun m1 m2 => (m1.user1_id, m1.user2_id) ≠ (m2.user1_id, m2.user2_id)) :=
    List.pairwise_map.mp hU
  have hpw2 : (matchesOf db U).Pairwise
      (fun m1 m2 => (m1.user1_id, m1.user2_id) ≠ (m2.user1_id, m2.user2_id)) :=
    hpw.sublist (List.filter_sublist _)
  refine hpw2.imp_of_mem ?_
  intro m1 m2 h1 h2 hne heq
  apply hne
  rw [pair_eq_of_mem_matchesOf db U hC m1 h1, pair_eq_of_mem_matchesOf db U hC m2 h2, heq]

/-- C4: for every user and every state the store admits,
`getTotalUnreadCount` is non-negative and equals the sum of the
`unread_count` fields over the conversation summaries `getConversations`
returns for the same user on the same state. -/
theorem unread_conservation (db : DB) (U : String) (hC : MatchesCanonical db)
    (hU : MatchesUnique db) (hM : MessagesMatched db) :
    0 ≤ getTotalUnreadCount db U ∧
    getTotalUnreadCount db U =
      ((getConversations db U).map ConvSummary.unread_count).sum := by
  refine ⟨Nat.zero_le _, ?_⟩
  unfold getConversations
  rw [List.Perm.sum_eq ((List.perm_insertionSort convDesc _).map ConvSummary.unread_count)]
  rw [List.map_map]
  show getTotalUnreadCount db U
    = ((matchesOf db U).map fun m => unreadFromList db.messages (otherOf U m) U).sum
  have hcomp : ((matchesOf db U).map fun m => unreadFromList db.messages (otherOf U m) U)
      = ((matchesOf db U).map (otherOf U)).map fun o => unreadFromList db.messages o U := by
    rw [List.map_map]
    rfl
  rw [hcomp]
  rw [sum_unread_eq db.messages U ((matchesOf db U).map (otherOf U)) (others_nodup db U hC hU)]
  unfold getTotalUnreadCount
  congr 1
  symm
  apply List.filter_congr
  intro m hm
  cases hbase : (m.recipient_id == U && m.read_at == none) with
  | false => rw [Bool.and_false]
  | true =>
    have hcover : ((matchesOf db U).map (otherOf U)).contains m.sender_id = true := by
      have hrecip : m.recipient_id = U := by
        rw [Bool.and_eq_true] at hbase
        simpa using hbase.1
      obtain ⟨mr, hmr, hside⟩ := hM m hm
      have hcanon := hC mr hmr
      rcases hside with ⟨hs1, hs2⟩ | ⟨hs1, hs2⟩
      · -- mr = (sender, U)
        have hmrU : mr ∈ matchesOf db U := by
          refine List.mem_filter.mpr ⟨hmr, ?_⟩
          rw [hs2, hrecip]
          simp
        have hother : otherOf U mr = m.sender_id := by
          unfold otherOf
          rw [if_neg]
          · exact hs1
          · intro hc
            have hu1 : mr.user1_id = U := by simpa using hc
            rw [hu1, hs2, hrecip, strLt_irrefl] at hcanon
            cases hcanon
        have : m.sender_id ∈ (matchesOf db U).map (otherOf U) :=
          List.mem_map.mpr ⟨mr, hmrU, hother⟩
        simpa using this
      · -- mr = (U, sender)
        have hmrU : mr ∈ matchesOf db U := by
          refine List.mem_filter.mpr ⟨hmr, ?_⟩
          rw [hs1, hrecip]
          simp
        have hother : otherOf U mr = m.sender_id := by
          unfold otherOf
          rw [if_pos]
          · exact hs2
          · rw [hs1, hrecip]
            exact beq_self_eq_true U
        have : m.sender_id ∈ (matchesOf db U).map (otherOf U) :=
          List.mem_map.mpr ⟨mr, hmrU, hother⟩
        simpa using this
    rw [hcover]
    rw [Bool.true_and]

/-- Store for the C4 witness: one match `(a, u)`, two unread messages and
one read message from `a` to `u`, and one unread message from `u` to
`a`. -/
def dbConv : DB :=
  { emptyDB with
    matchRows := [⟨"a", "u"⟩]
    messages :=
      [⟨"a", "u", "hi", none, 3⟩, ⟨"a", "u", "yo", none, 4⟩,
       ⟨"a", "u", "old", some 2, 1⟩, ⟨"u", "a", "re", none, 5⟩] }

/-- C4 witness: the conservation theorem applied to the concrete store. -/
theorem unread_conservation_witness :
    0 ≤ getTotalUnreadCount dbConv "u" ∧
    getTotalUnreadCount dbConv "u" =
      ((getConversations dbConv "u").map ConvSummary.unread_count).sum :=
  unread_conservation dbConv "u" (by unfold MatchesCanonical; decide)
    (by unfold MatchesUnique; decide) (by unfold MessagesMatched; decide)

end MomApp
